import Mathlib

set_option linter.unusedVariables false

/-!
Verification of the Mython interpreter core: a shallow embedding of the
lexer (`lexer.cpp` / `lexer.h`), the runtime object model (`runtime.cpp` /
`runtime.h`) and the AST executor (`statement.cpp` / `statement.h`),
together with theorems settling the specification claims.
-/

namespace runtime

/-- Runtime errors: `rte` models a thrown `std::runtime_error` with its
message, `ub` models undefined behaviour (dereferencing a null pointer
obtained from a failed `TryAs`/`dynamic_cast`), `fuel` marks exhaustion of
the step budget of the fueled evaluator (the C++ code would keep running). -/
inductive Err where
  | rte (msg : String)
  | ub
  | fuel
deriving DecidableEq, Repr

/-- Comparator selector for `ast::Comparison` nodes: the parser passes one
of the six `runtime` comparison functions as the `cmp_` callback. -/
inductive Cmp where
  | eq | ne | lt | gt | le | ge
deriving DecidableEq, Repr

mutual
/-- AST statement nodes, from `statement.h`.  Each constructor corresponds
to one `ast::` node class; the payloads are the node's member fields. -/
inductive Stmt where
  | numericConst (v : Int)
  | stringConst (v : String)
  | boolConst (v : Bool)
  | noneConst
  | variableValue (chain : List String)
  | assignment (var : String) (value : Stmt)
  | fieldAssignment (objChain : List String) (field : String) (value : Stmt)
  | printStmt (args : List Stmt)
  | methodCall (obj : Stmt) (method : String) (args : List Stmt)
  | stringify (arg : Stmt)
  | add (lhs rhs : Stmt)
  | sub (lhs rhs : Stmt)
  | mult (lhs rhs : Stmt)
  | div (lhs rhs : Stmt)
  | compound (commands : List Stmt)
  | returnStmt (statement : Stmt)
  | classDefinition (cls : ClassData)
  | ifElse (condition ifBody : Stmt) (elseBody : Option Stmt)
  | orStmt (lhs rhs : Stmt)
  | andStmt (lhs rhs : Stmt)
  | notStmt (arg : Stmt)
  | comparison (cmp : Cmp) (lhs rhs : Stmt)
  | newInstance (cls : ClassData) (args : List Stmt)
  | methodBody (body : Stmt)

/-- `runtime::Method`: name, formal parameter names, body. -/
inductive Method where
  | mk (name : String) (formalParams : List String) (body : Stmt)

/-- `runtime::Class` after construction: its name and its flattened method
table `vtbl_` (the constructor has already merged the parent's table). -/
inductive ClassData where
  | mk (name : String) (vtbl : List (String × Method))
end

def Method.name : Method → String
  | .mk n _ _ => n

def Method.formalParams : Method → List String
  | .mk _ ps _ => ps

def Method.body : Method → Stmt
  | .mk _ _ b => b

def ClassData.name : ClassData → String
  | .mk n _ => n

def ClassData.vtbl : ClassData → List (String × Method)
  | .mk _ v => v

/-- `Class::GetMethod`: look the name up in the vtable. -/
def ClassData.GetMethod (cls : ClassData) (name : String) : Option Method :=
  cls.vtbl.lookup name

/-- `ClassInstance::HasMethod`: the method exists and its formal parameter
count equals `argumentCount`. -/
def ClassData.HasMethod (cls : ClassData) (method : String) (argumentCount : Nat) : Bool :=
  match cls.GetMethod method with
  | some m => m.formalParams.length == argumentCount
  | none => false

/-- A runtime value as seen through an `ObjectHolder`: `none` is the empty
holder, `inst ref` refers to the `ClassInstance` stored at index `ref` of
the heap. -/
inductive Value where
  | none
  | bool (b : Bool)
  | number (n : Int)
  | str (s : String)
  | cls (c : ClassData)
  | inst (ref : Nat)

/-- A `ClassInstance`: its class and its field map `fields_`. -/
structure InstData where
  cls : ClassData
  fields : List (String × Value)

/-- Global mutable state threaded through execution: the heap of class
instances and the output stream of the `Context`. -/
structure St where
  heap : List InstData
  out : String

/-- `runtime::Closure`: symbol table of one call frame. -/
abbrev Closure := List (String × Value)

/-- Type of the evaluator passed to the helper combinators: executing a
statement transforms the frame's closure and the global state and yields a
value or propagates an exception. -/
abbrev EvalFn := Stmt → Closure → St → Closure × St × Except Err Value

/-- `closure[name] = v` on an `unordered_map`: replace the binding if the
key is present, otherwise insert it. -/
def upsert (c : Closure) (k : String) (v : Value) : Closure :=
  match c with
  | [] => [(k, v)]
  | (k', v') :: rest => if k' = k then (k, v) :: rest else (k', v') :: upsert rest k v

/-- `runtime::IsTrue`: truthiness coercion. -/
def IsTrue : Value → Bool
  | .bool b => b
  | .number n => n != 0
  | .str s => !s.isEmpty
  | _ => false

/-- The `operator bool` of `ObjectHolder`: true iff the holder is non-empty. -/
def holderBool : Value → Bool
  | .none => false
  | _ => true

/-- `VariableValue::FindVariable`: look a name up in a closure, throwing
"Unknown variable" when absent. -/
def FindVariable (closure : Closure) (name : String) : Except Err Value :=
  match closure.lookup name with
  | some v => .ok v
  | Option.none => .error (.rte "Unknown variable")

/-- The loop of `VariableValue::Execute`: resolve the remaining names of a
dotted chain as fields of successive class instances. -/
def chainLookup (heap : List InstData) : Value → List String → Except Err Value
  | v, [] => .ok v
  | v, name :: rest =>
    match v with
    | .inst ref =>
      match heap[ref]? with
      | some idata =>
        match FindVariable idata.fields name with
        | .ok v' => chainLookup heap v' rest
        | .error e => .error e
      | Option.none => .error .ub
    | _ => .error (.rte "Wrong type")

/-- The parameter-binding loop of `ClassInstance::Call`: bind each formal
parameter positionally to the corresponding actual argument. -/
def bindParams : Closure → List String → List Value → Closure
  | c, [], _ => c
  | c, _ :: _, [] => c
  | c, p :: ps, v :: vs => bindParams (upsert c p v) ps vs

/-- `ClassInstance::Call`: check `HasMethod`, build a fresh closure with
`self` and the formal parameters, execute the body with the evaluator `f`.
The body's closure is discarded; heap and output effects persist. -/
def Call (f : EvalFn) (cls : ClassData) (ref : Nat) (method : String)
    (actualArgs : List Value) (st : St) : St × Except Err Value :=
  if cls.HasMethod method actualArgs.length then
    match cls.GetMethod method with
    | some m =>
      let closure := bindParams (upsert [] "self" (Value.inst ref)) m.formalParams actualArgs
      let (_, st', r) := f m.body closure st
      (st', r)
    | Option.none => (st, .error .ub)
  else (st, .error (.rte "Method can not be found"))

/-- `runtime::Equal` with the dispatch order of `runtime.cpp`: both empty,
both Bool, both Number, both String, lhs instance with `__eq__`/1, else
throw.  A non-Bool result of `__eq__` is a null dereference (`ub`). -/
def EqualF (f : EvalFn) (lhs rhs : Value) (st : St) : St × Except Err Bool :=
  match lhs, rhs with
  | .none, .none => (st, .ok true)
  | .bool x, .bool y => (st, .ok (x == y))
  | .number x, .number y => (st, .ok (x == y))
  | .str x, .str y => (st, .ok (x == y))
  | .inst ref, r =>
    match st.heap[ref]? with
    | some idata =>
      if idata.cls.HasMethod "__eq__" 1 then
        match Call f idata.cls ref "__eq__" [r] st with
        | (st', .ok (.bool b)) => (st', .ok b)
        | (st', .ok _) => (st', .error .ub)
        | (st', .error e) => (st', .error e)
      else (st, .error (.rte "Objects cannot be compared"))
    | Option.none => (st, .error .ub)
  | _, _ => (st, .error (.rte "Objects cannot be compared"))

/-- Byte-wise lexicographic `<` of `std::string_view`, on character lists. -/
def charListLt : List Char → List Char → Bool
  | [], [] => false
  | [], _ :: _ => true
  | _ :: _, [] => false
  | a :: as', b :: bs' => if a < b then true else if b < a then false else charListLt as' bs'

/-- `runtime::Less`, same dispatch as `EqualF` but with `<` and `__lt__`. -/
def LessF (f : EvalFn) (lhs rhs : Value) (st : St) : St × Except Err Bool :=
  match lhs, rhs with
  | .bool x, .bool y => (st, .ok (!x && y))
  | .number x, .number y => (st, .ok (decide (x < y)))
  | .str x, .str y => (st, .ok (charListLt x.toList y.toList))
  | .inst ref, r =>
    match st.heap[ref]? with
    | some idata =>
      if idata.cls.HasMethod "__lt__" 1 then
        match Call f idata.cls ref "__lt__" [r] st with
        | (st', .ok (.bool b)) => (st', .ok b)
        | (st', .ok _) => (st', .error .ub)
        | (st', .error e) => (st', .error e)
      else (st, .error (.rte "Objects cannot be compared"))
    | Option.none => (st, .error .ub)
  | _, _ => (st, .error (.rte "Objects cannot be compared"))

/-- `runtime::NotEqual`: `!Equal(lhs, rhs, context)`. -/
def NotEqualF (f : EvalFn) (lhs rhs : Value) (st : St) : St × Except Err Bool :=
  match EqualF f lhs rhs st with
  | (st1, .ok b) => (st1, .ok !b)
  | (st1, .error e) => (st1, .error e)

/-- `runtime::Greater`: `!(Less(lhs,rhs) || Equal(lhs,rhs))`, with the C++
left-to-right short-circuit of `||`. -/
def GreaterF (f : EvalFn) (lhs rhs : Value) (st : St) : St × Except Err Bool :=
  match LessF f lhs rhs st with
  | (st1, .ok true) => (st1, .ok false)
  | (st1, .ok false) =>
    match EqualF f lhs rhs st1 with
    | (st2, .ok b) => (st2, .ok !b)
    | (st2, .error e) => (st2, .error e)
  | (st1, .error e) => (st1, .error e)

/-- `runtime::LessOrEqual`: `Less(lhs,rhs) || Equal(lhs,rhs)`. -/
def LessOrEqualF (f : EvalFn) (lhs rhs : Value) (st : St) : St × Except Err Bool :=
  match LessF f lhs rhs st with
  | (st1, .ok true) => (st1, .ok true)
  | (st1, .ok false) => EqualF f lhs rhs st1
  | (st1, .error e) => (st1, .error e)

/-- `runtime::GreaterOrEqual`: `!Less(lhs, rhs, context)`. -/
def GreaterOrEqualF (f : EvalFn) (lhs rhs : Value) (st : St) : St × Except Err Bool :=
  match LessF f lhs rhs st with
  | (st1, .ok b) => (st1, .ok !b)
  | (st1, .error e) => (st1, .error e)

/-- Dispatch for the `cmp_` callback of an `ast::Comparison` node. -/
def CmpApply (f : EvalFn) : Cmp → Value → Value → St → St × Except Err Bool
  | .eq => EqualF f
  | .ne => NotEqualF f
  | .lt => LessF f
  | .gt => GreaterF f
  | .le => LessOrEqualF f
  | .ge => GreaterOrEqualF f

/-- `Object::Print` dispatched on the dynamic type: returns the text the
object writes to the target stream; a `__str__` call may additionally
write to the context stream inside `st`.  Printing through an empty holder
is a null dereference. -/
def PrintValue (f : EvalFn) (v : Value) (st : St) : St × Except Err String :=
  match v with
  | .none => (st, .error .ub)
  | .number n => (st, .ok (toString n))
  | .str s => (st, .ok s)
  | .bool b => (st, .ok (if b then "True" else "False"))
  | .cls c => (st, .ok ("Class " ++ c.name))
  | .inst ref =>
    match st.heap[ref]? with
    | Option.none => (st, .error .ub)
    | some idata =>
      if idata.cls.HasMethod "__str__" 0 then
        match Call f idata.cls ref "__str__" [] st with
        | (st', .ok (.str s)) => (st', .ok s)
        | (st', .ok _) => (st', .error .ub)
        | (st', .error e) => (st', .error e)
      else (st, .ok ("0x" ++ toString ref))

end runtime

namespace ast

open runtime

/-- Kind test replacing `dynamic_cast<Return*>` in `Compound::Execute`. -/
def isReturnStmt : Stmt → Bool
  | .returnStmt _ => true
  | _ => false

/-- Kind test replacing `dynamic_cast<IfElse*>` in `Compound::Execute`. -/
def isIfElseStmt : Stmt → Bool
  | .ifElse _ _ _ => true
  | _ => false

/-- Kind test replacing `dynamic_cast<Compound*>` in `Compound::Execute`. -/
def isCompoundStmt : Stmt → Bool
  | .compound _ => true
  | _ => false

/-- The argument-evaluation loop of `MethodCall::Execute` and
`NewInstance::Execute`: evaluate each expression left to right, collecting
the values; an exception aborts the loop. -/
def execArgs (f : EvalFn) : List Stmt → Closure → St → Closure × St × Except Err (List Value)
  | [], c, st => (c, st, .ok [])
  | a :: rest, c, st =>
    let (c1, st1, r) := f a c st
    match r with
    | .error e => (c1, st1, .error e)
    | .ok v =>
      match execArgs f rest c1 st1 with
      | (c2, st2, .ok vs) => (c2, st2, .ok (v :: vs))
      | (c2, st2, .error e) => (c2, st2, .error e)

/-- The loop of `Compound::Execute`: run each command; exit with the
command's result when it is a `Return`, or an `IfElse` or nested `Compound`
whose holder is non-empty; otherwise fall through to the empty holder. -/
def execCompound (f : EvalFn) : List Stmt → Closure → St → Closure × St × Except Err Value
  | [], c, st => (c, st, .ok .none)
  | p :: rest, c, st =>
    let (c1, st1, r) := f p c st
    match r with
    | .error e => (c1, st1, .error e)
    | .ok v =>
      if isReturnStmt p || (isIfElseStmt p && holderBool v) || (isCompoundStmt p && holderBool v) then
        (c1, st1, .ok v)
      else execCompound f rest c1 st1

/-- The loop of `Print::Execute`: a space before every argument but the
first, then the argument's own effects, then its printed form ("None" for
an empty holder), all appended to the context's output stream. -/
def printArgs (f : EvalFn) : List Stmt → Bool → Closure → St → Closure × St × Except Err Unit
  | [], _, c, st => (c, st, .ok ())
  | a :: rest, isNotFirst, c, st =>
    let st0 := if isNotFirst then { st with out := st.out ++ " " } else st
    let (c1, st1, r) := f a c st0
    match r with
    | .error e => (c1, st1, .error e)
    | .ok v =>
      if holderBool v then
        match PrintValue f v st1 with
        | (st2, .ok txt) => printArgs f rest true c1 { st2 with out := st2.out ++ txt }
        | (st2, .error e) => (c1, st2, .error e)
      else printArgs f rest true c1 { st1 with out := st1.out ++ "None" }

/-- The fueled executor: `Execute n s closure st` runs the `Execute`
member function of the node `s` from `statement.cpp`, with one unit of
fuel consumed per node entered.  The result is the updated frame closure,
the updated global state, and the node's `ObjectHolder` or the exception
it threw. -/
def Execute : Nat → Stmt → Closure → St → Closure × St × Except Err Value
  | 0, _, c, st => (c, st, .error .fuel)
  | n + 1, s, c, st =>
    match s with
    | .numericConst v => (c, st, .ok (.number v))
    | .stringConst v => (c, st, .ok (.str v))
    | .boolConst v => (c, st, .ok (.bool v))
    | .noneConst => (c, st, .ok .none)
    | .variableValue chain =>
      match chain with
      | [] => (c, st, .error .ub)
      | name :: rest =>
        match FindVariable c name with
        | .error e => (c, st, .error e)
        | .ok v =>
          match chainLookup st.heap v rest with
          | .ok v' => (c, st, .ok v')
          | .error e => (c, st, .error e)
    | .assignment var value =>
      let (c1, st1, r) := Execute n value c st
      match r with
      | .error e => (c1, st1, .error e)
      | .ok v => (upsert c1 var v, st1, .ok v)
    | .fieldAssignment objChain field value =>
      let objRes : Except Err Value :=
        match objChain with
        | [] => .error .ub
        | name :: rest =>
          match FindVariable c name with
          | .error e => .error e
          | .ok v => chainLookup st.heap v rest
      match objRes with
      | .error e => (c, st, .error e)
      | .ok v =>
        match v with
        | .inst ref =>
          let (c1, st1, r) := Execute n value c st
          match r with
          | .error e => (c1, st1, .error e)
          | .ok rv =>
            match st1.heap[ref]? with
            | some idata =>
              (c1, { st1 with heap := st1.heap.set ref { idata with fields := upsert idata.fields field rv } }, .ok rv)
            | Option.none => (c1, st1, .error .ub)
        | _ => (c, st, .error (.rte "Object is not a class instance"))
    | .printStmt args =>
      let (c1, st1, r) := printArgs (Execute n) args false c st
      match r with
      | .error e => (c1, st1, .error e)
      | .ok _ => (c1, { st1 with out := st1.out ++ "\n" }, .ok .none)
    | .methodCall obj method args =>
      let (c1, st1, r1) := execArgs (Execute n) args c st
      match r1 with
      | .error e => (c1, st1, .error e)
      | .ok vs =>
        let (c2, st2, r2) := Execute n obj c1 st1
        match r2 with
        | .error e => (c2, st2, .error e)
        | .ok rv =>
          match rv with
          | .inst ref =>
            match st2.heap[ref]? with
            | some idata =>
              if idata.cls.HasMethod method vs.length then
                let (st3, r3) := Call (Execute n) idata.cls ref method vs st2
                (c2, st3, r3)
              else (c2, st2, .error (.rte "Wrong method call"))
            | Option.none => (c2, st2, .error .ub)
          | _ => (c2, st2, .error (.rte "Wrong method call"))
    | .stringify arg =>
      let (c1, st1, r) := Execute n arg c st
      match r with
      | .error e => (c1, st1, .error e)
      | .ok v =>
        let finish : Closure → St → Value → Closure × St × Except Err Value := fun c' st' res =>
          match res with
          | .none => (c', st', .ok (.str "None"))
          | res =>
            match PrintValue (Execute n) res st' with
            | (st'', .ok txt) => (c', st'', .ok (.str txt))
            | (st'', .error e) => (c', st'', .error e)
        match v with
        | .inst ref =>
          match st1.heap[ref]? with
          | Option.none => (c1, st1, .error .ub)
          | some idata =>
            if idata.cls.HasMethod "__str__" 0 then
              match Call (Execute n) idata.cls ref "__str__" [] st1 with
              | (st2, .error e) => (c1, st2, .error e)
              | (st2, .ok res) => finish c1 st2 res
            else finish c1 st1 v
        | _ => finish c1 st1 v
    | .add lhs rhs =>
      let (c1, st1, r1) := Execute n lhs c st
      match r1 with
      | .error e => (c1, st1, .error e)
      | .ok left =>
        let (c2, st2, r2) := Execute n rhs c1 st1
        match r2 with
        | .error e => (c2, st2, .error e)
        | .ok right =>
          match left, right with
          | .number x, .number y => (c2, st2, .ok (.number (x + y)))
          | .str x, .str y => (c2, st2, .ok (.str (x ++ y)))
          | .inst ref, right =>
            match st2.heap[ref]? with
            | some idata =>
              if idata.cls.HasMethod "__add__" 1 then
                let (st3, r3) := Call (Execute n) idata.cls ref "__add__" [right] st2
                (c2, st3, r3)
              else (c2, st2, .error (.rte "ADD is unavailable"))
            | Option.none => (c2, st2, .error .ub)
          | _, _ => (c2, st2, .error (.rte "ADD is unavailable"))
    | .sub lhs rhs =>
      let (c1, st1, r1) := Execute n lhs c st
      match r1 with
      | .error e => (c1, st1, .error e)
      | .ok left =>
        let (c2, st2, r2) := Execute n rhs c1 st1
        match r2 with
        | .error e => (c2, st2, .error e)
        | .ok right =>
          match left, right with
          | .number x, .number y => (c2, st2, .ok (.number (x - y)))
          | _, _ => (c2, st2, .error (.rte "SUB is unavailable"))
    | .mult lhs rhs =>
      let (c1, st1, r1) := Execute n lhs c st
      match r1 with
      | .error e => (c1, st1, .error e)
      | .ok left =>
        let (c2, st2, r2) := Execute n rhs c1 st1
        match r2 with
        | .error e => (c2, st2, .error e)
        | .ok right =>
          match left, right with
          | .number x, .number y => (c2, st2, .ok (.number (x * y)))
          | _, _ => (c2, st2, .error (.rte "MULT is unavailable"))
    | .div lhs rhs =>
      let (c1, st1, r1) := Execute n lhs c st
      match r1 with
      | .error e => (c1, st1, .error e)
      | .ok left =>
        let (c2, st2, r2) := Execute n rhs c1 st1
        match r2 with
        | .error e => (c2, st2, .error e)
        | .ok right =>
          match left, right with
          | .number x, .number y =>
            if y ≠ 0 then (c2, st2, .ok (.number (Int.tdiv x y)))
            else (c2, st2, .error (.rte "Denominator is 0"))
          | _, _ => (c2, st2, .error (.rte "MULT is unavailable"))
    | .compound commands => execCompound (Execute n) commands c st
    | .returnStmt statement => Execute n statement c st
    | .classDefinition cls => (upsert c cls.name (.cls cls), st, .ok .none)
    | .ifElse condition ifBody elseBody =>
      let (c1, st1, r) := Execute n condition c st
      match r with
      | .error e => (c1, st1, .error e)
      | .ok v =>
        if IsTrue v then Execute n ifBody c1 st1
        else
          match elseBody with
          | some eb => Execute n eb c1 st1
          | Option.none => (c1, st1, .ok .none)
    | .orStmt lhs rhs =>
      let (c1, st1, r1) := Execute n lhs c st
      match r1 with
      | .error e => (c1, st1, .error e)
      | .ok left =>
        let (c2, st2, r2) := Execute n rhs c1 st1
        match r2 with
        | .error e => (c2, st2, .error e)
        | .ok right =>
          (c2, st2, .ok (.bool (if IsTrue left then true else if IsTrue right then true else false)))
    | .andStmt lhs rhs =>
      let (c1, st1, r1) := Execute n lhs c st
      match r1 with
      | .error e => (c1, st1, .error e)
      | .ok left =>
        let (c2, st2, r2) := Execute n rhs c1 st1
        match r2 with
        | .error e => (c2, st2, .error e)
        | .ok right =>
          (c2, st2, .ok (.bool (if !IsTrue left then false else if !IsTrue right then false else true)))
    | .notStmt arg =>
      let (c1, st1, r) := Execute n arg c st
      match r with
      | .error e => (c1, st1, .error e)
      | .ok v => (c1, st1, .ok (.bool (if IsTrue v then false else true)))
    | .comparison cmp lhs rhs =>
      let (c1, st1, r1) := Execute n lhs c st
      match r1 with
      | .error e => (c1, st1, .error e)
      | .ok left =>
        let (c2, st2, r2) := Execute n rhs c1 st1
        match r2 with
        | .error e => (c2, st2, .error e)
        | .ok right =>
          match CmpApply (Execute n) cmp left right st2 with
          | (st3, .ok b) => (c2, st3, .ok (.bool b))
          | (st3, .error e) => (c2, st3, .error e)
    | .newInstance cls args =>
      let ref := st.heap.length
      let st1 : St := { st with heap := st.heap ++ [⟨cls, []⟩] }
      match cls.GetMethod "__init__" with
      | some m =>
        if m.formalParams.length = args.length then
          let (c1, st2, r) := execArgs (Execute n) args c st1
          match r with
          | .error e => (c1, st2, .error e)
          | .ok vs =>
            match Call (Execute n) cls ref "__init__" vs st2 with
            | (st3, .ok _) => (c1, st3, .ok (.inst ref))
            | (st3, .error e) => (c1, st3, .error e)
        else (c, st1, .ok (.inst ref))
      | Option.none => (c, st1, .ok (.inst ref))
    | .methodBody body => Execute n body c st

end ast

namespace runtime

/-- `runtime::Equal` with the ambient context: user `__eq__` methods are
executed by the fueled evaluator. -/
def Equal (n : Nat) (lhs rhs : Value) (st : St) : St × Except Err Bool :=
  EqualF (ast.Execute n) lhs rhs st

/-- `runtime::Less` with the ambient context. -/
def Less (n : Nat) (lhs rhs : Value) (st : St) : St × Except Err Bool :=
  LessF (ast.Execute n) lhs rhs st

/-- `runtime::NotEqual` with the ambient context. -/
def NotEqual (n : Nat) (lhs rhs : Value) (st : St) : St × Except Err Bool :=
  NotEqualF (ast.Execute n) lhs rhs st

/-- `runtime::Greater` with the ambient context. -/
def Greater (n : Nat) (lhs rhs : Value) (st : St) : St × Except Err Bool :=
  GreaterF (ast.Execute n) lhs rhs st

/-- `runtime::LessOrEqual` with the ambient context. -/
def LessOrEqual (n : Nat) (lhs rhs : Value) (st : St) : St × Except Err Bool :=
  LessOrEqualF (ast.Execute n) lhs rhs st

/-- `runtime::GreaterOrEqual` with the ambient context. -/
def GreaterOrEqual (n : Nat) (lhs rhs : Value) (st : St) : St × Except Err Bool :=
  GreaterOrEqualF (ast.Execute n) lhs rhs st

/-- Logical negation of a fallible boolean computation: values are negated,
exceptions propagate.  This is the "not" of the spec's defining equations
for the derived comparisons. -/
def notE : St × Except Err Bool → St × Except Err Bool
  | (st, .ok b) => (st, .ok !b)
  | (st, .error e) => (st, .error e)

/-- Left-to-right short-circuit "or" of two fallible boolean computations:
the second runs only when the first returns `false`; exceptions propagate.
This is the "or" of the spec's defining equations for the derived
comparisons. -/
def orE (first second : St → St × Except Err Bool) (st : St) : St × Except Err Bool :=
  match first st with
  | (st1, .ok true) => (st1, .ok true)
  | (st1, .ok false) => second st1
  | (st1, .error e) => (st1, .error e)

end runtime

namespace ast

open runtime

/-- Transcribed from the words of spec §4.5, as the reference behaviour
`Compound::Execute` must realise: evaluate the children in order;
short-circuit with a child's result when the child is a `Return`, or when
it is an `IfElse` or a nested `Compound` that yielded a non-empty holder;
otherwise continue; after all children the result is the empty holder. -/
def compoundSpecExec (f : EvalFn) : List Stmt → Closure → St → Closure × St × Except Err Value
  | [], c, st => (c, st, .ok .none)
  | child :: rest, c, st =>
    let (c1, st1, r) := f child c st
    match r with
    | .error e => (c1, st1, .error e)
    | .ok v =>
      if isReturnStmt child then (c1, st1, .ok v)
      else if (isIfElseStmt child || isCompoundStmt child) && holderBool v then (c1, st1, .ok v)
      else compoundSpecExec f rest c1 st1

end ast

namespace parse

/-- The token kinds of `lexer.h` (`parse::token_type`), with their payloads. -/
inductive Tok where
  | number (value : Int)
  | id (value : String)
  | char (value : Char)
  | str (value : String)
  | kwClass
  | kwReturn
  | kwIf
  | kwElse
  | kwDef
  | newline
  | kwPrint
  | indent
  | dedent
  | kwAnd
  | kwOr
  | kwNot
  | eq
  | notEq
  | lessOrEq
  | greaterOrEq
  | kwNone
  | kwTrue
  | kwFalse
  | eof
deriving DecidableEq, Repr

/-- Lexer-side failures: `err` models a thrown `LexerError` with its
message; `fuel` marks exhaustion of the step budget (where the C++ code
would loop forever on input no rule consumes). -/
inductive LexErr where
  | err (msg : String)
  | fuel
deriving DecidableEq, Repr

/-- The lexer state: the remaining input characters (the `istream`), the
current token, the running block indent `str_indent_` and the leading-space
count of the current line `spaces_in_str_begin`. -/
structure LexState where
  input : List Char
  current : Tok
  strIndent : Nat
  spaces : Nat
deriving DecidableEq, Repr

/-- `Lexer::ReadSpaces`: count the spaces at the head of the stream,
consuming them; an odd count throws "Indent parsing error". -/
def ReadSpaces (l : List Char) : Except LexErr (Nat × List Char) :=
  let sp := (l.takeWhile (· = ' ')).length
  if sp % 2 = 1 then .error (.err "Indent parsing error")
  else .ok (sp, l.dropWhile (· = ' '))

/-- `Lexer::ReadNumber`: consume a maximal run of decimal digits,
accumulating their value. -/
def ReadNumber : List Char → Nat → Nat × List Char
  | c :: rest, acc =>
    if c.isDigit then ReadNumber rest (acc * 10 + (c.toNat - '0'.toNat))
    else (acc, c :: rest)
  | [], acc => (acc, [])

/-- `Lexer::ReadString`: consume until the matching quote; a newline,
carriage return, or end of input inside the literal throws "String parsing
error"; `\n`, `\t`, `\'`, `\"` escapes are translated and any other
escaped character is dropped. -/
def ReadString (quot : Char) : List Char → String → Except LexErr (String × List Char)
  | [], _ => .error (.err "String parsing error")
  | c :: rest, acc =>
    if c = '\n' ∨ c = '\r' then .error (.err "String parsing error")
    else if c = '\\' then
      match rest with
      | [] => .error (.err "String parsing error")
      | e :: rest' =>
        let acc' :=
          if e = 'n' then acc.push '\n'
          else if e = 't' then acc.push '\t'
          else if e = '\'' then acc.push '\''
          else if e = '\"' then acc.push '\"'
          else acc
        ReadString quot rest' acc'
    else if c = quot then .ok (acc, rest)
    else ReadString quot rest (acc.push c)

/-- The keyword table of `Lexer::ReadIdentifier`. -/
def keywordTok (line : String) : Tok :=
  if line = "class" then .kwClass
  else if line = "return" then .kwReturn
  else if line = "if" then .kwIf
  else if line = "else" then .kwElse
  else if line = "def" then .kwDef
  else if line = "print" then .kwPrint
  else if line = "and" then .kwAnd
  else if line = "or" then .kwOr
  else if line = "not" then .kwNot
  else if line = "True" then .kwTrue
  else if line = "False" then .kwFalse
  else if line = "None" then .kwNone
  else .id line

/-- The consuming loop of `Lexer::ReadIdentifier`: a maximal run of
alphanumeric characters and underscores. -/
def ReadIdentifier (l : List Char) : String × List Char :=
  ((l.takeWhile fun c => c.isAlphanum || c = '_').asString,
   l.dropWhile fun c => c.isAlphanum || c = '_')

/-- `Lexer::ReadComparison`: the head character (one of `! = < >`), plus a
following `=` if present; lone `!` throws "Operator parsing error". -/
def ReadComparison : List Char → Except LexErr (Tok × List Char)
  | [] => .error .fuel
  | c :: rest =>
    match rest with
    | '=' :: rest' =>
      if c = '=' then .ok (.eq, rest')
      else if c = '!' then .ok (.notEq, rest')
      else if c = '<' then .ok (.lessOrEq, rest')
      else if c = '>' then .ok (.greaterOrEq, rest')
      else .error (.err "Operator parsing error")
    | _ =>
      if c = '=' ∨ c = '<' ∨ c = '>' then .ok (.char c, rest)
      else .error (.err "Operator parsing error")

/-- The comment rule of `Lexer::NextToken`: when the stream starts with
`#`, `getline` consumes through the end of the line and the newline is put
back (so everything before the `'\n'` is dropped; if the line is the last
one the whole stream is consumed and the failed `putback` leaves it
empty). -/
def commentStrip (l : List Char) : List Char :=
  if l.head? = some '#' then l.dropWhile (· ≠ '\n') else l

/-- `Lexer::NextToken`, fueled.  Mirrors the rule order of `lexer.cpp`:
comment stripping, line break (with blank-line collapse via recursion),
the indent/dedent adjustments (whose three-way token-kind guard in the
source is always true and therefore omitted), end of input, number,
string, identifier/keyword, comparison starters, single-char punctuation,
and finally inline-space skipping followed by re-entry. -/
def NextToken : Nat → LexState → Except LexErr (Tok × LexState)
  | 0, _ => .error .fuel
  | n + 1, st =>
    let input0 := commentStrip st.input
    if input0.head? = some '\n' then
      match ReadSpaces input0.tail with
      | .error e => .error e
      | .ok (sp, input1) =>
        if st.current ≠ Tok.newline then
          .ok (Tok.newline, ⟨input1, Tok.newline, st.strIndent, sp⟩)
        else
          NextToken n ⟨input1, st.current, st.strIndent, sp⟩
    else if st.strIndent < st.spaces then
      .ok (Tok.indent, ⟨input0, Tok.indent, st.strIndent + 2, st.spaces⟩)
    else if st.spaces < st.strIndent then
      .ok (Tok.dedent, ⟨input0, Tok.dedent, st.strIndent - 2, st.spaces⟩)
    else if input0.isEmpty then
      if st.current ≠ Tok.newline ∧ st.current ≠ Tok.eof ∧ st.current ≠ Tok.dedent then
        .ok (Tok.newline, ⟨input0, Tok.newline, st.strIndent, st.spaces⟩)
      else
        .ok (Tok.eof, ⟨input0, Tok.eof, st.strIndent, st.spaces⟩)
    else
      match input0 with
      | [] => .error .fuel
      | ch :: rest =>
        if ch.isDigit then
          let (v, rest') := ReadNumber (ch :: rest) 0
          .ok (Tok.number (Int.ofNat v), ⟨rest', Tok.number (Int.ofNat v), st.strIndent, st.spaces⟩)
        else if ch = '\'' ∨ ch = '\"' then
          match ReadString ch rest "" with
          | .error e => .error e
          | .ok (s, rest') => .ok (Tok.str s, ⟨rest', Tok.str s, st.strIndent, st.spaces⟩)
        else if ch = '_' ∨ ch.isAlpha then
          let (line, rest') := ReadIdentifier (ch :: rest)
          let tk := keywordTok line
          .ok (tk, ⟨rest', tk, st.strIndent, st.spaces⟩)
        else if ch = '!' ∨ ch = '=' ∨ ch = '<' ∨ ch = '>' then
          match ReadComparison (ch :: rest) with
          | .error e => .error e
          | .ok (tk, rest') => .ok (tk, ⟨rest', tk, st.strIndent, st.spaces⟩)
        else if ['+', '-', '*', '/', ':', '(', ')', '.', ','].contains ch then
          .ok (Tok.char ch, ⟨rest, Tok.char ch, st.strIndent, st.spaces⟩)
        else
          NextToken n ⟨input0.dropWhile (· = ' '), st.current, st.strIndent, st.spaces⟩

/-- The `Lexer` constructor before it primes the first token: consume the
leading spaces and start with `current_token_ = Newline`. -/
def lexerInit (s : List Char) : Except LexErr LexState :=
  match ReadSpaces s with
  | .error e => .error e
  | .ok (sp, rest) => .ok ⟨rest, Tok.newline, 0, sp⟩

/-- Drive `NextToken` until it produces `Eof`, collecting the emitted
token stream (ending with the single `Eof`). -/
def lexAllFrom : Nat → LexState → Except LexErr (List Tok)
  | 0, _ => .error .fuel
  | n + 1, st =>
    match NextToken (n + 1) st with
    | .error e => .error e
    | .ok (t, st') =>
      if t = Tok.eof then .ok [Tok.eof]
      else
        match lexAllFrom n st' with
        | .error e => .error e
        | .ok ts => .ok (t :: ts)

/-- Tokenize a whole source text: construct the lexer, then collect every
token through `Eof`. -/
def tokenize (n : Nat) (s : String) : Except LexErr (List Tok) :=
  match lexerInit s.toList with
  | .error e => .error e
  | .ok st => lexAllFrom n st

end parse

open runtime ast parse

/-- C1.  `And::Execute` evaluates its right operand even when the left
operand is falsy: executing `False and (x = 1)` in an empty scope performs
the assignment (the final closure binds `x` to `1`), although the result
is still `Bool false`.  This contradicts the short-circuit contract stated
both by the spec and by the comments on `ast::And`/`ast::Or` in
`statement.h`. -/
theorem and_evaluates_rhs_despite_false_lhs :
    Execute 3 (.andStmt (.boolConst false) (.assignment "x" (.numericConst 1))) [] ⟨[], ""⟩
      = ([("x", Value.number 1)], ⟨[], ""⟩, .ok (.bool false)) := by
  rfl

/-- C2, counterexample.  `MethodCall::Execute` evaluates the argument list
before the receiver: in `(t = 2).m(t = 1)` the final binding of `t` is `2`
(the receiver's write happened last), while receiver-first evaluation
would leave `t = 1`. -/
theorem methodCall_receiver_after_args_counterexample :
    Execute 3 (.methodCall (.assignment "t" (.numericConst 2)) "m" [.assignment "t" (.numericConst 1)]) [] ⟨[], ""⟩
      = ([("t", Value.number 2)], ⟨[], ""⟩, .error (.rte "Wrong method call"))
    ∧ Value.number 2 ≠ Value.number 1 := by
  exact ⟨rfl, by simp⟩

/-- C2, amended.  `MethodCall::Execute` first evaluates the argument
expressions left-to-right (state `st` to `st1`), then evaluates the
receiver expression (state `st1` to `st2`), and only then dispatches on
the receiver: a matching-arity method of a class instance is called,
anything else throws "Wrong method call". -/
theorem methodCall_evaluates_args_then_receiver :
    ∀ (n : Nat) (obj : Stmt) (method : String) (args : List Stmt) (c : Closure) (st : St)
      (c1 : Closure) (st1 : St) (vs : List Value) (c2 : Closure) (st2 : St) (rv : Value),
    execArgs (Execute n) args c st = (c1, st1, .ok vs) →
    Execute n obj c1 st1 = (c2, st2, .ok rv) →
    Execute (n + 1) (.methodCall obj method args) c st =
      (match rv with
       | .inst ref =>
         (match st2.heap[ref]? with
          | some idata =>
            if idata.cls.HasMethod method vs.length then
              (let (st3, r3) := Call (Execute n) idata.cls ref method vs st2
               (c2, st3, r3))
            else (c2, st2, .error (.rte "Wrong method call"))
          | Option.none => (c2, st2, .error .ub))
       | _ => (c2, st2, .error (.rte "Wrong method call"))) := by
  intro n obj method args c st c1 st1 vs c2 st2 rv h1 h2
  simp only [Execute, h1, h2]

/-- Witness for C2's amended theorem at a concrete input: calling `m` on
the receiver `5` with no arguments evaluates the (empty) argument list and
the receiver, then throws "Wrong method call". -/
theorem methodCall_evaluates_args_then_receiver_witness :
    Execute 2 (.methodCall (.numericConst 5) "m" []) [] ⟨[], ""⟩
      = ([], ⟨[], ""⟩, .error (.rte "Wrong method call")) := by
  have h := methodCall_evaluates_args_then_receiver 1 (.numericConst 5) "m" [] [] ⟨[], ""⟩
    [] ⟨[], ""⟩ [] [] ⟨[], ""⟩ (.number 5) rfl rfl
  simpa using h

/-- C3, counterexample.  `runtime::Equal` throws "Objects cannot be
compared" when both sides hold the same `Class` object (no dispatch case
matches a `Class` value), and `NotEqual` therefore throws as well —
refuting the claim that `Equal(v, v)` is true and throw-free for every
runtime value. -/
theorem equal_class_object_throws :
    Equal 0 (.cls ⟨"C", []⟩) (.cls ⟨"C", []⟩) ⟨[], ""⟩
      = (⟨[], ""⟩, .error (.rte "Objects cannot be compared"))
    ∧ NotEqual 0 (.cls ⟨"C", []⟩) (.cls ⟨"C", []⟩) ⟨[], ""⟩
      = (⟨[], ""⟩, .error (.rte "Objects cannot be compared")) := by
  exact ⟨rfl, rfl⟩

/-- C3, amended.  For every value of a primitive shape — empty holder
(`None`), `Bool`, `Number`, `String` — `Equal(v, v)` returns `true` and
`NotEqual(v, v)` returns `false`, neither throwing nor touching the state;
a `Class` object on both sides, by contrast, makes both functions throw
"Objects cannot be compared". -/
theorem equal_self_primitive :
    (∀ (n : Nat) (st : St) (v : Value),
      (v = .none ∨ (∃ b, v = .bool b) ∨ (∃ x, v = .number x) ∨ (∃ s, v = .str s)) →
      Equal n v v st = (st, .ok true) ∧ NotEqual n v v st = (st, .ok false))
    ∧ (∀ (n : Nat) (st : St) (cd : ClassData),
      Equal n (.cls cd) (.cls cd) st = (st, .error (.rte "Objects cannot be compared"))
      ∧ NotEqual n (.cls cd) (.cls cd) st = (st, .error (.rte "Objects cannot be compared"))) := by
  constructor
  · intro n st v hv
    rcases hv with rfl | ⟨b, rfl⟩ | ⟨x, rfl⟩ | ⟨s, rfl⟩ <;>
      simp [Equal, NotEqual, EqualF, NotEqualF]
  · intro n st cd
    exact ⟨rfl, rfl⟩

/-- Witness for C3's amended theorem at concrete inputs: the number `7`
compares equal to itself, and a concrete class object throws. -/
theorem equal_self_primitive_witness :
    (Equal 0 (.number 7) (.number 7) ⟨[], ""⟩ = (⟨[], ""⟩, .ok true)
      ∧ NotEqual 0 (.number 7) (.number 7) ⟨[], ""⟩ = (⟨[], ""⟩, .ok false))
    ∧ (Equal 0 (.cls ⟨"D", []⟩) (.cls ⟨"D", []⟩) ⟨[], ""⟩
        = (⟨[], ""⟩, .error (.rte "Objects cannot be compared"))
      ∧ NotEqual 0 (.cls ⟨"D", []⟩) (.cls ⟨"D", []⟩) ⟨[], ""⟩
        = (⟨[], ""⟩, .error (.rte "Objects cannot be compared"))) := by
  exact ⟨equal_self_primitive.1 0 ⟨[], ""⟩ (.number 7) (Or.inr (Or.inr (Or.inl ⟨7, rfl⟩))),
         equal_self_primitive.2 0 ⟨[], ""⟩ ⟨"D", []⟩⟩

/-- C5.  `Div::Execute` evaluates both operands; on two `Number`s it
yields the truncating integer quotient when the divisor is nonzero,
throws "Denominator is 0" (leaving the state — in particular the output
stream — exactly as the operands left it) when the divisor is zero, and
throws a runtime error for every other pair of operand types. -/
theorem div_execute_semantics :
    ∀ (n : Nat) (a b : Stmt) (c : Closure) (st : St) (c1 : Closure) (st1 : St) (va : Value)
      (c2 : Closure) (st2 : St) (vb : Value),
    Execute n a c st = (c1, st1, .ok va) →
    Execute n b c1 st1 = (c2, st2, .ok vb) →
    ((∀ x y, va = .number x → vb = .number y → y ≠ 0 →
        Execute (n + 1) (.div a b) c st = (c2, st2, .ok (.number (Int.tdiv x y))))
     ∧ (∀ x, va = .number x → vb = .number 0 →
        Execute (n + 1) (.div a b) c st = (c2, st2, .error (.rte "Denominator is 0")))
     ∧ ((∀ x y, ¬(va = .number x ∧ vb = .number y)) →
        Execute (n + 1) (.div a b) c st = (c2, st2, .error (.rte "MULT is unavailable")))) := by
  intro n a b c st c1 st1 va c2 st2 vb h1 h2
  refine ⟨?_, ?_, ?_⟩
  · rintro x y rfl rfl hy
    simp [Execute, h1, h2, hy]
  · rintro x rfl rfl
    simp [Execute, h1, h2]
  · intro hnn
    cases va <;> cases vb <;> simp [Execute, h1, h2]
    all_goals exact absurd ⟨rfl, rfl⟩ (hnn _ _)

/-- Witness for C5 at concrete inputs: `7 / 2 = 3` (truncation),
`1 / 0` throws "Denominator is 0", and `"a" / 1` throws the type error. -/
theorem div_execute_semantics_witness :
    Execute 2 (.div (.numericConst 7) (.numericConst 2)) [] ⟨[], ""⟩ = ([], ⟨[], ""⟩, .ok (.number 3))
    ∧ Execute 2 (.div (.numericConst 1) (.numericConst 0)) [] ⟨[], ""⟩
        = ([], ⟨[], ""⟩, .error (.rte "Denominator is 0"))
    ∧ Execute 2 (.div (.stringConst "a") (.numericConst 1)) [] ⟨[], ""⟩
        = ([], ⟨[], ""⟩, .error (.rte "MULT is unavailable")) := by
  refine ⟨?_, ?_, ?_⟩
  · have h := (div_execute_semantics 1 (.numericConst 7) (.numericConst 2) [] ⟨[], ""⟩
      [] ⟨[], ""⟩ (.number 7) [] ⟨[], ""⟩ (.number 2) rfl rfl).1 7 2 rfl rfl (by decide)
    simpa using h
  · have h := (div_execute_semantics 1 (.numericConst 1) (.numericConst 0) [] ⟨[], ""⟩
      [] ⟨[], ""⟩ (.number 1) [] ⟨[], ""⟩ (.number 0) rfl rfl).2.1 1 rfl rfl
    simpa using h
  · have h := (div_execute_semantics 1 (.stringConst "a") (.numericConst 1) [] ⟨[], ""⟩
      [] ⟨[], ""⟩ (.str "a") [] ⟨[], ""⟩ (.number 1) rfl rfl).2.2 (by rintro x y ⟨h, -⟩; cases h)
    simpa using h

/-- C9.  When both operands execute successfully, `Or`, `And` and `Not`
always yield a freshly built `Bool` whose value is the corresponding
boolean combination of the operands' truthiness — never one of the operand
values themselves. -/
theorem logic_ops_return_fresh_bool :
    ∀ (n : Nat) (a b : Stmt) (c : Closure) (st : St) (c1 : Closure) (st1 : St) (va : Value)
      (c2 : Closure) (st2 : St) (vb : Value),
    Execute n a c st = (c1, st1, .ok va) →
    Execute n b c1 st1 = (c2, st2, .ok vb) →
    (Execute (n + 1) (.orStmt a b) c st = (c2, st2, .ok (.bool (IsTrue va || IsTrue vb)))
     ∧ Execute (n + 1) (.andStmt a b) c st = (c2, st2, .ok (.bool (IsTrue va && IsTrue vb)))
     ∧ Execute (n + 1) (.notStmt a) c st = (c1, st1, .ok (.bool (!IsTrue va)))) := by
  intro n a b c st c1 st1 va c2 st2 vb h1 h2
  refine ⟨?_, ?_, ?_⟩ <;>
    · simp only [Execute, h1, h2]
      cases hva : IsTrue va <;> cases hvb : IsTrue vb <;> simp
/-- Witness for C9 at a concrete input: `5 or ""` yields `Bool true`
(a fresh `Bool`, not the operand `5`), `5 and ""` yields `Bool false`,
and `not 5` yields `Bool false`. -/
theorem logic_ops_return_fresh_bool_witness :
    Execute 2 (.orStmt (.numericConst 5) (.stringConst "")) [] ⟨[], ""⟩ = ([], ⟨[], ""⟩, .ok (.bool true))
    ∧ Execute 2 (.andStmt (.numericConst 5) (.stringConst "")) [] ⟨[], ""⟩ = ([], ⟨[], ""⟩, .ok (.bool false))
    ∧ Execute 2 (.notStmt (.numericConst 5)) [] ⟨[], ""⟩ = ([], ⟨[], ""⟩, .ok (.bool false)) := by
  have h := logic_ops_return_fresh_bool 1 (.numericConst 5) (.stringConst "") [] ⟨[], ""⟩
    [] ⟨[], ""⟩ (.number 5) [] ⟨[], ""⟩ (.str "") rfl rfl
  exact ⟨by simpa using h.1, by simpa using h.2.1, by simpa using h.2.2⟩

/-- C10.  `NewInstance::Execute` allocates a fresh instance with an empty
field map first; when the class has no `__init__` whose formal-parameter
count equals the argument count, that instance is returned at once — no
argument expression is evaluated (closure and output are untouched).
Only when a matching `__init__` exists are the arguments evaluated
left-to-right and `__init__` called on the new instance before it is
returned. -/
theorem newInstance_init_dispatch :
    (∀ (n : Nat) (cls : ClassData) (args : List Stmt) (c : Closure) (st : St),
      (∀ m, cls.GetMethod "__init__" = some m → m.formalParams.length ≠ args.length) →
      Execute (n + 1) (.newInstance cls args) c st
        = (c, { st with heap := st.heap ++ [⟨cls, []⟩] }, .ok (.inst st.heap.length)))
    ∧ (∀ (n : Nat) (cls : ClassData) (args : List Stmt) (c : Closure) (st : St)
        (m : Method) (c1 : Closure) (st2 : St) (vs : List Value),
      cls.GetMethod "__init__" = some m →
      m.formalParams.length = args.length →
      execArgs (Execute n) args c { st with heap := st.heap ++ [⟨cls, []⟩] } = (c1, st2, .ok vs) →
      Execute (n + 1) (.newInstance cls args) c st =
        (match Call (Execute n) cls st.heap.length "__init__" vs st2 with
         | (st3, .ok _) => (c1, st3, .ok (.inst st.heap.length))
         | (st3, .error e) => (c1, st3, .error e))) := by
  constructor
  · intro n cls args c st h
    cases hm : cls.GetMethod "__init__" with
    | none => simp [Execute, hm]
    | some m => simp [Execute, hm, h m hm]
  · intro n cls args c st m c1 st2 vs hm hlen hargs
    simp only [Execute, hm, hlen, if_pos, hargs]

set_option maxHeartbeats 2000000 in
/-- Helper: the keyword table never yields a `Newline` token. -/
theorem keywordTok_not_newline : ∀ s, keywordTok s ≠ Tok.newline := by
  intro s
  unfold keywordTok
  split_ifs <;> exact fun h => nomatch h

/-- Helper: `ReadComparison` never yields a `Newline` token. -/
theorem readComparison_not_newline :
    ∀ (l : List Char) (tk : Tok) (rest : List Char),
    ReadComparison l = .ok (tk, rest) → tk ≠ Tok.newline := by
  intro l tk rest h
  rcases l with _ | ⟨c, cs⟩
  · exact Except.noConfusion h
  · simp only [ReadComparison] at h
    repeat' split at h
    all_goals
      first
      | exact Except.noConfusion h
      | (injection h with h1; injection h1 with h2 h3; subst h2; exact fun hh => nomatch hh)

/-- Helper for C7: when the current token is already `Newline`, no call of
`NextToken` can return another `Newline` — every emission site is guarded
by `current_token_ != Newline` and the recursive re-entries preserve the
current token. -/
theorem no_consecutive_newlines :
    ∀ (n : Nat) (st : LexState) (t : Tok) (st' : LexState),
    st.current = Tok.newline → NextToken n st = .ok (t, st') → t ≠ Tok.newline := by
  intro n
  induction n with
  | zero => intro st t st' hc h; exact Except.noConfusion h
  | succ n ih =>
    intro st t st' hc h
    simp only [NextToken] at h
    split at h
    · split at h
      · exact Except.noConfusion h
      · split at h
        · rename_i hcond
          exact absurd hc hcond
        · refine ih _ t st' ?_ h
          exact hc
    · split at h
      · injection h with h1; injection h1 with h2 h3; subst h2
        exact fun hh => nomatch hh
      · split at h
        · injection h with h1; injection h1 with h2 h3; subst h2
          exact fun hh => nomatch hh
        · split at h
          · split at h
            · rename_i hcond
              exact absurd hc hcond.1
            · injection h with h1; injection h1 with h2 h3; subst h2
              exact fun hh => nomatch hh
          · split at h
            · exact Except.noConfusion h
            · split at h
              · injection h with h1; injection h1 with h2 h3; subst h2
                exact fun hh => nomatch hh
              · split at h
                · split at h
                  · exact Except.noConfusion h
                  · injection h with h1; injection h1 with h2 h3; subst h2
                    exact fun hh => nomatch hh
                · split at h
                  · injection h with h1; injection h1 with h2 h3; subst h2
                    exact keywordTok_not_newline _
                  · split at h
                    · split at h
                      · exact Except.noConfusion h
                      · rename_i tk0 rest' heq
                        injection h with h1; injection h1 with h2 h3; subst h2
                        exact readComparison_not_newline _ _ _ heq
                    · split at h
                      · injection h with h1; injection h1 with h2 h3; subst h2
                        exact fun hh => nomatch hh
                      · refine ih _ t st' ?_ h
                        exact hc

/-- C6.  At the start of each logical line `ReadSpaces` counts the leading
spaces and throws "Indent parsing error" when the count is odd; on each
subsequent `NextToken` call (with no comment or line break pending) one
`Indent` is emitted and the running level rises by 2 while the counted
column exceeds it, and one `Dedent` is emitted and the level drops by 2
while the counted column is below it, until the two agree. -/
theorem indentation_protocol :
    (∀ l : List Char, (l.takeWhile (· = ' ')).length % 2 = 1 →
      ReadSpaces l = .error (.err "Indent parsing error"))
    ∧ (∀ (n : Nat) (st : LexState), st.input.head? ≠ some '#' → st.input.head? ≠ some '\n' →
      st.strIndent < st.spaces →
      NextToken (n + 1) st = .ok (Tok.indent, ⟨st.input, Tok.indent, st.strIndent + 2, st.spaces⟩))
    ∧ (∀ (n : Nat) (st : LexState), st.input.head? ≠ some '#' → st.input.head? ≠ some '\n' →
      st.spaces < st.strIndent →
      NextToken (n + 1) st = .ok (Tok.dedent, ⟨st.input, Tok.dedent, st.strIndent - 2, st.spaces⟩)) := by
  refine ⟨?_, ?_, ?_⟩
  · intro l hodd
    simp [ReadSpaces, hodd]
  · intro n st h1 h2 h3
    simp only [NextToken, commentStrip]
    simp [h1, h2, h3]
  · intro n st h1 h2 h3
    have h4 : ¬ st.strIndent < st.spaces := by omega
    simp only [NextToken, commentStrip]
    simp [h1, h2, h3, h4]

/-- Witness for C6 at concrete inputs: one leading space is rejected; at
counted column 2 against level 0 an `Indent` is emitted and the level
becomes 2; at counted column 2 against level 4 a `Dedent` is emitted and
the level becomes 2. -/
theorem indentation_protocol_witness :
    ReadSpaces [' ', 'x'] = .error (.err "Indent parsing error")
    ∧ NextToken 1 ⟨['x'], Tok.newline, 0, 2⟩ = .ok (Tok.indent, ⟨['x'], Tok.indent, 2, 2⟩)
    ∧ NextToken 1 ⟨['x'], Tok.newline, 4, 2⟩ = .ok (Tok.dedent, ⟨['x'], Tok.dedent, 2, 2⟩) := by
  refine ⟨?_, ?_, ?_⟩
  · exact indentation_protocol.1 [' ', 'x'] (by rfl)
  · exact indentation_protocol.2.1 0 ⟨['x'], Tok.newline, 0, 2⟩ (by decide) (by decide) (by decide)
  · exact indentation_protocol.2.2 0 ⟨['x'], Tok.newline, 4, 2⟩ (by decide) (by decide) (by decide)

/-- C7, counterexample.  On the input `"  x\n"` the stream is exhausted
when the trailing `Newline` is emitted, yet the next call returns `Dedent`
(the pending de-indentation), not `Eof` — so it is false that after the
final `Newline` every further `NextToken` call returns `Eof`.  The second
conjunct isolates the decisive step from the state reached after that
`Newline`. -/
theorem eof_stickiness_counterexample :
    tokenize 20 "  x\n" = .ok [.indent, .id "x", .newline, .dedent, .eof]
    ∧ NextToken 5 ⟨[], Tok.newline, 2, 0⟩ = .ok (Tok.dedent, ⟨[], Tok.dedent, 0, 0⟩)
    ∧ Tok.dedent ≠ Tok.eof := by
  exact ⟨rfl, rfl, fun h => nomatch h⟩

/-- C7, amended.  The lexer never emits two consecutive `Newline` tokens;
when the stream is exhausted and no indent adjustment is pending (counted
column equals the running level), it emits one final `Newline` iff the
current token is none of `Newline`, `Eof`, `Dedent`, and otherwise `Eof`;
once `Eof` has been produced every further call returns `Eof` with the
state unchanged (pending `Indent`/`Dedent` adjustments, by contrast, are
still emitted after exhaustion before the `Eof` state is reached). -/
theorem newline_collapse_and_eof :
    (∀ (n : Nat) (st : LexState) (t : Tok) (st' : LexState),
      st.current = Tok.newline → NextToken n st = .ok (t, st') → t ≠ Tok.newline)
    ∧ (∀ (n : Nat) (st : LexState), st.input = [] → st.spaces = st.strIndent →
      st.current ≠ Tok.newline → st.current ≠ Tok.eof → st.current ≠ Tok.dedent →
      NextToken (n + 1) st = .ok (Tok.newline, ⟨[], Tok.newline, st.strIndent, st.spaces⟩))
    ∧ (∀ (n : Nat) (st : LexState), st.input = [] → st.spaces = st.strIndent →
      (st.current = Tok.newline ∨ st.current = Tok.eof ∨ st.current = Tok.dedent) →
      NextToken (n + 1) st = .ok (Tok.eof, ⟨[], Tok.eof, st.strIndent, st.spaces⟩))
    ∧ (∀ (n : Nat) (st : LexState), st.input = [] → st.spaces = st.strIndent →
      st.current = Tok.eof →
      NextToken (n + 1) st = .ok (Tok.eof, st)) := by
  refine ⟨no_consecutive_newlines, ?_, ?_, ?_⟩
  · intro n st hin hsp h1 h2 h3
    simp only [NextToken, commentStrip, hin]
    simp [hsp, h1, h2, h3]
  · intro n st hin hsp hcur
    simp only [NextToken, commentStrip, hin]
    rcases hcur with h | h | h <;> simp [hsp, h]
  · intro n st hin hsp hcur
    obtain ⟨inp, cur, si, sp⟩ := st
    simp only at hin hsp hcur
    subst hin hsp hcur
    simp only [NextToken, commentStrip]
    simp

/-- Witness for C7's amended theorem at concrete states: after an `Id`
token an exhausted balanced lexer emits the final `Newline`; from the
`Newline` state it emits `Eof`; and the `Eof` state is sticky. -/
theorem newline_collapse_and_eof_witness :
    (Tok.eof ≠ Tok.newline)
    ∧ NextToken 1 ⟨[], Tok.id "x", 0, 0⟩ = .ok (Tok.newline, ⟨[], Tok.newline, 0, 0⟩)
    ∧ NextToken 1 ⟨[], Tok.newline, 0, 0⟩ = .ok (Tok.eof, ⟨[], Tok.eof, 0, 0⟩)
    ∧ NextToken 1 ⟨[], Tok.eof, 0, 0⟩ = .ok (Tok.eof, ⟨[], Tok.eof, 0, 0⟩) := by
  refine ⟨?_, ?_, ?_, ?_⟩
  · exact newline_collapse_and_eof.1 1 ⟨[], Tok.newline, 0, 0⟩ Tok.eof ⟨[], Tok.eof, 0, 0⟩ rfl rfl
  · exact newline_collapse_and_eof.2.1 0 ⟨[], Tok.id "x", 0, 0⟩ rfl rfl
      (fun h => nomatch h) (fun h => nomatch h) (fun h => nomatch h)
  · exact newline_collapse_and_eof.2.2.1 0 ⟨[], Tok.newline, 0, 0⟩ rfl rfl (Or.inl rfl)
  · exact newline_collapse_and_eof.2.2.2 0 ⟨[], Tok.eof, 0, 0⟩ rfl rfl rfl

/-- C4.  The derived comparisons satisfy their defining equations from the
spec: `NotEqual = not Equal`, `Greater = not (Less or Equal)`,
`LessOrEqual = Less or Equal`, `GreaterOrEqual = not Less`, where "or"
short-circuits left to right and "not" maps values and propagates
exceptions — so each derived function returns a value exactly when its
defining combination does and throws exactly when the combination throws. -/
theorem derived_comparisons_defining_equations :
    ∀ (n : Nat) (lhs rhs : Value) (st : St),
    NotEqual n lhs rhs st = notE (Equal n lhs rhs st)
    ∧ Greater n lhs rhs st = notE (orE (Less n lhs rhs) (Equal n lhs rhs) st)
    ∧ LessOrEqual n lhs rhs st = orE (Less n lhs rhs) (Equal n lhs rhs) st
    ∧ GreaterOrEqual n lhs rhs st = notE (Less n lhs rhs st) := by
  intro n lhs rhs st
  refine ⟨?_, ?_, ?_, ?_⟩
  · simp only [NotEqual, NotEqualF, Equal, notE]
  · simp only [Greater, GreaterF, Equal, Less, notE, orE]
    rcases hL : LessF (Execute n) lhs rhs st with ⟨st1, r1⟩
    cases r1 with
    | error e => rfl
    | ok b =>
      cases b with
      | true => rfl
      | false =>
        rcases hE : EqualF (Execute n) lhs rhs st1 with ⟨st2, r2⟩
        cases r2 <;> simp [hE]
  · simp only [LessOrEqual, LessOrEqualF, Equal, Less, orE]
  · simp only [GreaterOrEqual, GreaterOrEqualF, Less, notE]

/-- Helper for C8: the loop of `Compound::Execute` agrees with the spec's
description of the early-exit protocol for every child evaluator. -/
theorem execCompound_eq_compoundSpec (f : EvalFn) :
    ∀ (cmds : List Stmt) (c : Closure) (st : St),
    execCompound f cmds c st = compoundSpecExec f cmds c st := by
  intro cmds
  induction cmds with
  | nil => intro c st; rfl
  | cons p rest ih =>
    intro c st
    simp only [execCompound, compoundSpecExec]
    rcases h : f p c st with ⟨c1, st1, r⟩
    cases r with
    | error e => simp
    | ok v =>
      cases hr : isReturnStmt p <;> cases hi : isIfElseStmt p <;>
        cases hc : isCompoundStmt p <;> cases hv : holderBool v <;>
        simp [ih]

/-- C8.  `Compound::Execute` realises the spec's early-exit protocol: the
children run in order; the compound returns the first child's result where
the child is a `Return`, or an `IfElse` or nested `Compound` whose holder
is non-empty (later children are not executed); otherwise every child runs
and the result is the empty holder. -/
theorem compound_execute_matches_spec :
    ∀ (n : Nat) (commands : List Stmt) (c : Closure) (st : St),
    Execute (n + 1) (.compound commands) c st = compoundSpecExec (Execute n) commands c st := by
  intro n commands c st
  exact execCompound_eq_compoundSpec (Execute n) commands c st

/-- Witness for C10 at concrete inputs: a class without `__init__` yields
an uninitialized instance without touching scope or output, and a class
whose `__init__(v)` stores `self.v = v` yields an instance whose field map
binds `v` to the evaluated argument. -/
theorem newInstance_init_dispatch_witness :
    Execute 1 (.newInstance ⟨"C", []⟩ [.assignment "x" (.numericConst 1)]) [] ⟨[], ""⟩
      = ([], ⟨[⟨⟨"C", []⟩, []⟩], ""⟩, .ok (.inst 0))
    ∧ Execute 4 (.newInstance
        ⟨"D", [("__init__", ⟨"__init__", ["v"], .fieldAssignment ["self"] "v" (.variableValue ["v"])⟩)]⟩
        [.numericConst 7]) [] ⟨[], ""⟩
      = ([], ⟨[⟨⟨"D", [("__init__", ⟨"__init__", ["v"], .fieldAssignment ["self"] "v" (.variableValue ["v"])⟩)]⟩,
               [("v", Value.number 7)]⟩], ""⟩, .ok (.inst 0)) := by
  constructor
  · have h := newInstance_init_dispatch.1 0 ⟨"C", []⟩ [.assignment "x" (.numericConst 1)] [] ⟨[], ""⟩
      (by intro m hm; exact absurd hm (by simp [ClassData.GetMethod, ClassData.vtbl]))
    simpa using h
  · have h := newInstance_init_dispatch.2 3
      ⟨"D", [("__init__", ⟨"__init__", ["v"], .fieldAssignment ["self"] "v" (.variableValue ["v"])⟩)]⟩
      [.numericConst 7] [] ⟨[], ""⟩
      ⟨"__init__", ["v"], .fieldAssignment ["self"] "v" (.variableValue ["v"])⟩
      [] ⟨[⟨⟨"D", [("__init__", ⟨"__init__", ["v"], .fieldAssignment ["self"] "v" (.variableValue ["v"])⟩)]⟩, []⟩], ""⟩
      [.number 7] rfl rfl rfl
    simpa using h
